import Mathlib

/-!
Shallow embedding of the Mirrio round-lifecycle state machine.

Sources embedded here:
- src/supabase/functions/create-round-auto/index.ts  (the deployed scheduler:
  vote tally, round closing, points award, round creation with cooldown and
  statement selection)
- src/unnamed/part_002                               (older draft scheduler,
  cooldown measured from issued_at)
- src/unnamed/part_003 (src/lib/supaApi.js)          (createRound, closeRound,
  submitVote, incrementPoints)
- src/src/mirrio.jsx                                 (localStorage prototype:
  closeRound with per-winner points, issueNewStatement with pool reset)

Timestamps are modelled as natural numbers of milliseconds (JS Date.getTime).
The relational store is a record of lists of rows.
-/

namespace Mirrio

/-- A statement row: prompt text is irrelevant to the state machine, so only
the id, the owning edition and the deleted flag are kept. -/
structure Statement where
  id : Nat
  editionId : Nat
  deleted : Bool
deriving Repr, DecidableEq

/-- A group row together with its member user ids (the group_members rows). -/
structure Group where
  id : Nat
  editionId : Nat
  members : List Nat
deriving Repr, DecidableEq

/-- A rounds row (a.k.a. group_statement). -/
structure Round where
  id : Nat
  groupId : Nat
  statementId : Nat
  issuedAt : Nat
  expiresAt : Nat
deriving Repr, DecidableEq

/-- A votes row: at most one per (roundId, voter); target none means abstain. -/
structure Vote where
  roundId : Nat
  voter : Nat
  target : Option Nat
deriving Repr, DecidableEq

/-- A round_results row: its existence is the authoritative closed signal. -/
structure RoundResult where
  roundId : Nat
  winner : Option Nat
  votesCount : Nat
  closedAt : Nat
deriving Repr, DecidableEq

/-- A points row: per (groupId, userId) running total. -/
structure PointsRow where
  userId : Nat
  groupId : Nat
  points : Nat
deriving Repr, DecidableEq

/-- The relational store (the system of record). group_used_statements rows
are (groupId, statementId) pairs. -/
structure DB where
  groups : List Group
  statements : List Statement
  rounds : List Round
  votes : List Vote
  roundResults : List RoundResult
  usedStatements : List (Nat × Nat)
  points : List PointsRow
deriving Repr, DecidableEq

/-! ## Vote tally (create-round-auto/index.ts lines 61-75; identical code in
part_002 lines 30-43 and part_006 lines 1189-1202) -/

/-- One step of `voteCounts[t] = (voteCounts[t] || 0) + 1` on an association
list that, like a JS object, keeps first-insertion key order. -/
def bumpCount (counts : List (Nat × Nat)) (t : Nat) : List (Nat × Nat) :=
  if counts.any (fun p => p.1 == t) then
    counts.map (fun p => if p.1 == t then (p.1, p.2 + 1) else p)
  else counts ++ [(t, 1)]

/-- The loop body of the vote count: `if (v.target) { voteCounts[v.target] =
(voteCounts[v.target] || 0) + 1 }`; abstentions (target none) are skipped. -/
def countStep (acc : List (Nat × Nat)) (v : Vote) : List (Nat × Nat) :=
  match v.target with
  | some t => bumpCount acc t
  | none => acc

/-- `votes?.forEach((v) => { ... })` over an initially empty object. -/
def voteCounts (votes : List Vote) : List (Nat × Nat) :=
  votes.foldl countStep []

/-- `Math.max(0, ...Object.values(voteCounts))`. -/
def maxVotes (counts : List (Nat × Nat)) : Nat :=
  (counts.map Prod.snd).foldl Nat.max 0

/-- `Object.entries(voteCounts).filter(([, count]) => count === maxVotes)
.map(([userId]) => userId)`. -/
def winnersOf (counts : List (Nat × Nat)) : List Nat :=
  (counts.filter (fun p => p.2 == maxVotes counts)).map Prod.fst

/-- `winners.length === 1 ? winners[0] : null`. -/
def tallyWinner (votes : List Vote) : Option Nat :=
  match winnersOf (voteCounts votes) with
  | [u] => some u
  | _ => none

/-! ## Store lookups -/

/-- True when a round_results row exists for the round (the existing-result
check of index.ts lines 43-53 and 166-172). -/
def hasResult (db : DB) (roundId : Nat) : Bool :=
  db.roundResults.any (fun r => r.roundId == roundId)

/-- All votes rows of one round. -/
def votesForRound (db : DB) (roundId : Nat) : List Vote :=
  db.votes.filter (fun v => v.roundId == roundId)

/-- group_members count for a group (index.ts lines 175-178). -/
def memberCount (db : DB) (groupId : Nat) : Nat :=
  match db.groups.find? (fun g => g.id == groupId) with
  | some g => g.members.length
  | none => 0

/-- Number of distinct voters of a round (the completeness notion of the
closing trigger). -/
def distinctVoters (db : DB) (roundId : Nat) : Nat :=
  ((votesForRound db roundId).map (fun v => v.voter)).dedup.length

/-! ## Points (index.ts lines 101-125; incrementPoints of part_003
lines 563-589) -/

/-- Upsert of a points row: update the existing (userId, groupId) row by
delta, else insert a fresh row with value delta. -/
def incrementPoints (pts : List PointsRow) (userId groupId delta : Nat) :
    List PointsRow :=
  if pts.any (fun p => p.userId == userId && p.groupId == groupId) then
    pts.map (fun p =>
      if p.userId == userId && p.groupId == groupId then
        { p with points := p.points + delta }
      else p)
  else pts ++ [⟨userId, groupId, delta⟩]

/-! ## Closing a round -/

/-- Closing one round inside the scheduler (the body of index.ts lines 42-125:
skip when a round_results row exists, tally, insert the result, then award a
point when there is a single winner). -/
def closeRoundServe (db : DB) (round : Round) (now : Nat) : DB :=
  if hasResult db round.id then db
  else
    let votes := votesForRound db round.id
    let winner := tallyWinner votes
    let maxV := maxVotes (voteCounts votes)
    let db1 := { db with
      roundResults := db.roundResults ++ [⟨round.id, winner, maxV, now⟩] }
    match winner with
    | some w => { db1 with points := incrementPoints db1.points w round.groupId 1 }
    | none => db1

/-- closeRound of src/lib/supaApi.js (part_003 lines 449-477): insert the
round_results row, throw on error, then award the winner a point. The
rejection of a duplicate insert is Modelled from the spec: the schema (not
under src/) enforces uniqueness of RoundResult per roundId, so a second
insert for the same round fails and the function throws before any write. -/
def closeRound (db : DB) (roundId : Nat) (winner : Option Nat)
    (votesCount : Nat) (now : Nat) : Except String RoundResult × DB :=
  if hasResult db roundId then
    (.error "duplicate round_results row for this round", db)
  else
    let res : RoundResult := ⟨roundId, winner, votesCount, now⟩
    let db1 := { db with roundResults := db.roundResults ++ [res] }
    match winner with
    | some w =>
      match db1.rounds.find? (fun r => r.id == roundId) with
      | some r =>
        (.ok res, { db1 with points := incrementPoints db1.points w r.groupId 1 })
      | none => (.ok res, db1)
    | none => (.ok res, db1)

/-- closeRound of the localStorage prototype (src/src/mirrio.jsx lines
653-673), restricted to a round that is not yet closed: tallies the non-abstain
votes (vote values are user keys, none is the abstain marker), records ALL
targets that reach the maximum as winnerEmails, and gives each of them one
leaderboard point. Returns (winnerEmails, new leaderboard). -/
def closeRoundProto (votes : List (Option Nat)) (lb : List (Nat × Nat)) :
    List Nat × List (Nat × Nat) :=
  let tally := votes.foldl
    (fun acc v =>
      match v with
      | some t => bumpCount acc t
      | none => acc) []
  let mx := maxVotes tally
  let winners := (tally.filter (fun p => p.2 == mx)).map Prod.fst
  let newLb := winners.foldl
    (fun acc e =>
      if acc.any (fun p => p.1 == e) then
        acc.map (fun p => if p.1 == e then (p.1, p.2 + 1) else p)
      else acc ++ [(e, 1)]) lb
  (winners, newLb)

/-! ## Creating a round -/

/-- Round ids are assigned by the store; modelled as one more than the largest
existing id. -/
def freshRoundId (db : DB) : Nat :=
  db.rounds.foldl (fun m r => Nat.max m (r.id + 1)) 0

/-- createRound of src/lib/supaApi.js (part_003 lines 430-447): an
unconditional insert of a rounds row with issuedAt = now and
expiresAt = now + expiresIn. No open-round precondition is checked. -/
def createRound (db : DB) (groupId statementId : Nat) (now expiresIn : Nat) :
    Round × DB :=
  let r : Round := ⟨freshRoundId db, groupId, statementId, now, now + expiresIn⟩
  (r, { db with rounds := db.rounds ++ [r] })

def msPerHour : Nat := 3600000

def dayMs : Nat := 24 * msPerHour

/-- Rounds of a group whose expires_at is strictly in the future — the
active-round check of index.ts lines 278-287 (`.gt('expires_at', now)`). -/
def activeRounds (db : DB) (groupId : Nat) (now : Nat) : List Round :=
  db.rounds.filter (fun r => r.groupId == groupId && decide (now < r.expiresAt))

/-- Rounds of a group that already have a round_results row. -/
def roundsWithResult (db : DB) (groupId : Nat) : List Round :=
  db.rounds.filter (fun r => r.groupId == groupId && hasResult db r.id)

/-- The group round with the greatest issued_at among those having a
round_results row, paired with that result — the `unprocessedResults` query of
index.ts lines 290-303 (inner join on round_results, order issued_at desc,
limit 1). -/
def lastClosedRound (db : DB) (groupId : Nat) : Option (Round × RoundResult) :=
  match (roundsWithResult db groupId).foldl
      (fun acc r =>
        match acc with
        | none => some r
        | some b => if b.issuedAt < r.issuedAt then some r else some b) none with
  | none => none
  | some r =>
    match db.roundResults.find? (fun res => res.roundId == r.id) with
    | some res => some (r, res)
    | none => none

/-- The 48h cooldown check of index.ts lines 301-310: skip the group when
fewer than 48 hours have passed since closed_at of the last closed round
(hoursSinceClose < 48). -/
def cooldownOk (db : DB) (groupId : Nat) (now : Nat) : Bool :=
  match lastClosedRound db groupId with
  | none => true
  | some (_, res) => !(decide (now - res.closedAt < 48 * msPerHour))

/-- Eligible statements of index.ts lines 312-325: non-deleted statements of
the group edition that carry no group_used_statements marker for this group. -/
def eligibleStatements (db : DB) (g : Group) : List Statement :=
  (db.statements.filter
      (fun s => s.editionId == g.editionId && s.deleted == false)).filter
    (fun s => !(db.usedStatements.any (fun u => u.1 == g.id && u.2 == s.id)))

/-- Statement selection of index.ts lines 327-334: none when the eligible pool
is empty (no reset), else the element at randomIndex modulo the pool size
(`Math.floor(Math.random() * len)` always lands below len). -/
def pickStatementServe (db : DB) (g : Group) (randomIndex : Nat) :
    Option Statement :=
  let unused := eligibleStatements db g
  if h : unused.length = 0 then none
  else some (unused.get ⟨randomIndex % unused.length, Nat.mod_lt _ (Nat.pos_of_ne_zero h)⟩)

/-- A single write against the store, used to model the order of the inserts
during round creation. -/
inductive WriteOp where
  | insertRound (r : Round)
  | insertUsed (groupId statementId : Nat)
deriving Repr, DecidableEq

def applyWrite (db : DB) : WriteOp → DB
  | .insertRound r => { db with rounds := db.rounds ++ [r] }
  | .insertUsed g s => { db with usedStatements := db.usedStatements ++ [(g, s)] }

/-- The write sequence of index.ts lines 336-366: first insert the rounds row
(issuedAt = now, expiresAt = now + 24h), then insert the
group_used_statements marker. The same order is used by handleStartNewRound
in part_006 lines 1142-1180 (createRound, then markStatementUsed). -/
def openRoundWrites (g : Group) (s : Statement) (now rid : Nat) : List WriteOp :=
  [.insertRound ⟨rid, g.id, s.id, now, now + dayMs⟩, .insertUsed g.id s.id]

/-- The per-group body of STEP 3 of index.ts (lines 276-387): skip when an
unexpired round exists, skip during the cooldown, skip when no statement is
eligible, else create the round and mark the statement used. -/
def createStepGroup (db : DB) (g : Group) (now randomIndex : Nat) : DB :=
  if 0 < (activeRounds db g.id now).length then db
  else if !(cooldownOk db g.id now) then db
  else
    match pickStatementServe db g randomIndex with
    | none => db
    | some s => (openRoundWrites g s now (freshRoundId db)).foldl applyWrite db

/-- The round of a group with the greatest issued_at (any result or none) —
the lastRound query of the older draft scheduler (part_002 lines 96-102). -/
def lastRoundByIssued (db : DB) (groupId : Nat) : Option Round :=
  (db.rounds.filter (fun r => r.groupId == groupId)).foldl
    (fun acc r =>
      match acc with
      | none => some r
      | some b => if b.issuedAt < r.issuedAt then some r else some b) none

/-- The cooldown check of the older draft scheduler (part_002 lines 104-109):
skip when fewer than 48 hours have passed since issued_at of the last round. -/
def cooldownOkDraft (db : DB) (groupId : Nat) (now : Nat) : Bool :=
  match lastRoundByIssued db groupId with
  | none => true
  | some r => !(decide (now - r.issuedAt < 48 * msPerHour))

/-- The per-group round-creation body of the older draft scheduler (part_002
lines 83-150). The statement comes from the next_statement_for_group RPC,
whose SQL is not under src/; it is passed in as a parameter. -/
def createStepGroupDraft (db : DB) (g : Group) (now : Nat)
    (nextStatement : Option Statement) : DB :=
  if 0 < (activeRounds db g.id now).length then db
  else if !(cooldownOkDraft db g.id now) then db
  else
    match nextStatement with
    | none => db
    | some s =>
      let r : Round := ⟨freshRoundId db, g.id, s.id, now, now + dayMs⟩
      { db with rounds := db.rounds ++ [r],
                usedStatements := db.usedStatements ++ [(g.id, s.id)] }

/-! ## The per-tick closing decision -/

/-- Whether one tick of the scheduler closes a round that it sees in state db.
STEP 1 of index.ts (lines 25-96) closes rounds with expires_at < now and no
existing result; STEP 2 (lines 154-218) closes rounds with expires_at > now
and no existing result when memberCount and voteCount are both nonzero (JS
truthiness of `memberCount && voteCount`) and voteCount >= memberCount. -/
def tickCloses (db : DB) (r : Round) (now : Nat) : Bool :=
  (decide (r.expiresAt < now) && !(hasResult db r.id))
  || (decide (now < r.expiresAt) && !(hasResult db r.id)
      && !(memberCount db r.groupId == 0)
      && !((votesForRound db r.id).length == 0)
      && decide (memberCount db r.groupId ≤ (votesForRound db r.id).length))

/-- Modelled from the spec: the closing trigger of section 4.2 as written —
(a) now >= expiresAt, or (b) distinct voters >= number of group members.
Stated for comparison with tickCloses. -/
def specCloses (db : DB) (r : Round) (now : Nat) : Bool :=
  decide (r.expiresAt ≤ now)
  || decide (memberCount db r.groupId ≤ distinctVoters db r.id)

/-! ## Vote submission (part_003 lines 480-496) -/

/-- submitVote of src/lib/supaApi.js: throw when unauthenticated, else upsert
the votes row. The conflict key of the upsert is Modelled from the spec: the
votes table (schema not under src/) is keyed by (roundId, voterId), so the
upsert replaces an existing row of the same voter and round, last write wins.
No validation of the target is performed. -/
def submitVote (db : DB) (userId : Option Nat) (roundId : Nat)
    (target : Option Nat) : Except String Vote × DB :=
  match userId with
  | none => (.error "Not authenticated", db)
  | some uid =>
    let v : Vote := ⟨roundId, uid, target⟩
    if db.votes.any (fun w => w.roundId == roundId && w.voter == uid) then
      let votes1 := db.votes.map
        (fun w => if w.roundId == roundId && w.voter == uid then v else w)
      (.ok v, { db with votes := votes1 })
    else
      (.ok v, { db with votes := db.votes ++ [v] })

/-! ## Statement selection of the prototype (src/src/mirrio.jsx lines
675-691) -/

/-- The edition filter of issueNewStatement:
`(s) => !group.editionId || s.editionId === group.editionId`. -/
def protoEditionFilter (editionId : Option Nat) (s : Statement) : Bool :=
  match editionId with
  | none => true
  | some e => s.editionId == e

/-- The keep predicate of the used-history reset of issueNewStatement,
`(sid) => { const st = db.statements.find(s=>s.id===sid);
return st && (!group.editionId || st.editionId !== group.editionId); }`:
a used id is kept when its statement exists and either the group has no
edition or the statement lies outside the group edition. With no edition set
every used id with an existing statement is kept, so nothing is reset. -/
def protoKeepUsed (statements : List Statement) (editionId : Option Nat)
    (sid : Nat) : Bool :=
  match statements.find? (fun s => s.id == sid) with
  | some st =>
    match editionId with
    | none => true
    | some e => !(st.editionId == e)
  | none => false

/-- The used-history reset of issueNewStatement when the pool is empty
(mirrio.jsx lines 682-685): filter the used ids by the keep predicate. -/
def protoResetUsed (statements : List Statement) (used : List Nat)
    (editionId : Option Nat) : List Nat :=
  used.filter (protoKeepUsed statements editionId)

/-- The pool recomputation of issueNewStatement: the eligible pool, the used
history after the conditional reset (cleared for this edition when the pool is
empty), and the recomputed available pool. Returns (available, used1). -/
def protoAvailable (statements : List Statement) (used : List Nat)
    (editionId : Option Nat) : List Statement × List Nat :=
  let pool := statements.filter
    (fun s => protoEditionFilter editionId s && !(used.contains s.id))
  let used1 := if pool.isEmpty then protoResetUsed statements used editionId
    else used
  (statements.filter
    (fun s => protoEditionFilter editionId s && !(used1.contains s.id)), used1)

/-- issueNewStatement selection core: compute the eligible pool, reset the
used history when it is empty, recompute, and pick the element at randomIndex
modulo the pool size; record the pick in the used history (the JS
`Array.from(new Set([...used, pick.id]))` adds the id when absent). Returns
the picked statement (none when nothing is available) and the new used
history. -/
def protoPickNext (statements : List Statement) (used : List Nat)
    (editionId : Option Nat) (randomIndex : Nat) :
    Option Statement × List Nat :=
  let av := protoAvailable statements used editionId
  if h : av.1.length = 0 then (none, av.2)
  else
    let pick := av.1.get
      ⟨randomIndex % av.1.length, Nat.mod_lt _ (Nat.pos_of_ne_zero h)⟩
    (some pick, if av.2.contains pick.id then av.2 else av.2 ++ [pick.id])

/-- Rounds of a group with no round_results row: the open (closedAt = null)
rounds in the sense of the core invariant. -/
def openRounds (db : DB) (groupId : Nat) : List Round :=
  db.rounds.filter (fun r => r.groupId == groupId && !(hasResult db r.id))

/-! ## Concrete states used by witnesses and counterexamples -/

/-- A group with one open (unclosed) round and one used statement. -/
def dbOpenOne : DB :=
  ⟨[⟨1, 1, [10, 11]⟩], [⟨1, 1, false⟩], [⟨1, 1, 1, 0, 100⟩], [], [], [(1, 1)], []⟩

/-- Two members voting for two different targets: a two-way tie. -/
def dbTie : DB :=
  ⟨[⟨1, 1, [10, 11]⟩], [], [⟨1, 1, 1, 0, 100⟩],
    [⟨1, 10, some 1⟩, ⟨1, 11, some 2⟩], [], [], []⟩

/-- Three ballots, votes split 2 for user 5 and 1 for user 6. -/
def dbThree : DB :=
  ⟨[⟨1, 1, [10, 11, 12]⟩], [], [⟨1, 1, 1, 0, 100⟩],
    [⟨1, 10, some 5⟩, ⟨1, 11, some 5⟩, ⟨1, 12, some 6⟩], [], [], []⟩

/-- One unclosed round expiring at time 100, no votes. -/
def dbBoundary : DB := ⟨[⟨1, 1, [10]⟩], [], [⟨1, 1, 1, 0, 100⟩], [], [], [], []⟩

def gDraft : Group := ⟨1, 1, [10]⟩

def stDraft : Statement := ⟨2, 1, false⟩

/-- A group whose only round was issued at 0 (expired at 24h) and closed at
the 40 hour mark. -/
def dbDraft : DB :=
  ⟨[gDraft], [stDraft], [⟨1, 1, 1, 0, 86400000⟩], [],
    [⟨1, none, 0, 144000000⟩], [(1, 1)], []⟩

def gEx : Group := ⟨1, 1, [10]⟩

/-- A group whose edition has exactly one statement, already marked used. -/
def dbExhausted : DB := ⟨[gEx], [⟨1, 1, false⟩], [], [], [], [(1, 1)], []⟩

/-- A round that already has its round_results row (winner 10, 2 votes). -/
def dbClosed : DB :=
  ⟨[⟨1, 1, [10, 11]⟩], [⟨1, 1, false⟩], [⟨1, 1, 1, 0, 100⟩], [],
    [⟨1, some 10, 2, 50⟩], [], [⟨10, 1, 3⟩]⟩

/-- A two-member group with one open round and no votes yet. -/
def dbMembers : DB := ⟨[⟨1, 1, [10, 11]⟩], [], [⟨1, 1, 1, 0, 100⟩], [], [], [], []⟩

def gFresh : Group := ⟨3, 1, [10]⟩

def stFresh : Statement := ⟨7, 1, false⟩

/-- A fresh group with one eligible statement and no rounds at all. -/
def dbFresh : DB := ⟨[gFresh], [stFresh], [], [], [], [], []⟩

/-! ## Helper lemmas on folds -/

theorem foldlMax_init_le (l : List Nat) (a : Nat) : a ≤ l.foldl Nat.max a := by
  induction l generalizing a with
  | nil => exact Nat.le_refl a
  | cons x t ih =>
    rw [List.foldl_cons]
    exact Nat.le_trans (Nat.le_max_left a x) (ih (Nat.max a x))

theorem foldlMax_mem_le {l : List Nat} {x : Nat} (hx : x ∈ l) :
    ∀ a, x ≤ l.foldl Nat.max a := by
  induction l with
  | nil => cases hx
  | cons y t ih =>
    intro a
    rw [List.foldl_cons]
    rcases List.mem_cons.mp hx with h | h
    · subst h
      exact Nat.le_trans (Nat.le_max_right a x) (foldlMax_init_le t _)
    · exact ih h _

theorem foldlMax_eq_or_mem (l : List Nat) :
    ∀ a, l.foldl Nat.max a = a ∨ l.foldl Nat.max a ∈ l := by
  induction l with
  | nil => intro a; exact Or.inl rfl
  | cons x t ih =>
    intro a
    rw [List.foldl_cons]
    rcases ih (Nat.max a x) with h | h
    · have hm : Nat.max a x = a ∨ Nat.max a x = x := by
        rcases Nat.le_total x a with hax | hax
        · exact Or.inl (Nat.max_eq_left hax)
        · exact Or.inr (Nat.max_eq_right hax)
      rcases hm with hm | hm
      · exact Or.inl (h.trans hm)
      · exact Or.inr (by rw [h, hm]; exact List.mem_cons_self x t)
    · exact Or.inr (List.mem_cons_of_mem x h)

theorem countsFold_filter (votes : List Vote) (acc : List (Nat × Nat)) :
    votes.foldl countStep acc
      = (votes.filter fun v => v.target.isSome).foldl countStep acc := by
  induction votes generalizing acc with
  | nil => rfl
  | cons v t ih =>
    cases hv : v.target with
    | none =>
      have h1 : countStep acc v = acc := by simp [countStep, hv]
      have h2 : (v :: t).filter (fun v => v.target.isSome)
          = t.filter (fun v => v.target.isSome) := by
        simp [List.filter_cons, hv]
      rw [List.foldl_cons, h1, h2]
      exact ih acc
    | some x =>
      have h1 : countStep acc v = bumpCount acc x := by simp [countStep, hv]
      have h2 : (v :: t).filter (fun v => v.target.isSome)
          = v :: t.filter (fun v => v.target.isSome) := by
        simp [List.filter_cons, hv]
      rw [List.foldl_cons, h1, h2, List.foldl_cons, h1]
      exact ih _

theorem countsFold_abstain (votes : List Vote) (acc : List (Nat × Nat))
    (h : ∀ v ∈ votes, v.target = none) : votes.foldl countStep acc = acc := by
  induction votes generalizing acc with
  | nil => rfl
  | cons v t ih =>
    have hv : v.target = none := h v (List.mem_cons_self v t)
    have h1 : countStep acc v = acc := by simp [countStep, hv]
    rw [List.foldl_cons, h1]
    exact ih acc (fun w hw => h w (List.mem_cons_of_mem v hw))

/-- When the tally has no single winner, the scheduler close step leaves the
points table unchanged. -/
theorem closeRoundServe_points_of_no_winner (db : DB) (r : Round) (now : Nat)
    (h : tallyWinner (votesForRound db r.id) = none) :
    (closeRoundServe db r now).points = db.points := by
  by_cases hres : hasResult db r.id
  · simp [closeRoundServe, hres]
  · simp [closeRoundServe, hres, h]

/-! ## C6 -/

/-- C6: the tally counts only non-abstaining votes toward candidates;
maxVotes bounds every per-target count and is attained by some target unless
it is 0; a list of only abstentions yields an empty count map, maxVotes 0 and
no winner. -/
theorem tally_ignores_abstentions (votes : List Vote) :
    voteCounts votes = voteCounts (votes.filter fun v => v.target.isSome)
    ∧ (∀ p ∈ voteCounts votes, p.2 ≤ maxVotes (voteCounts votes))
    ∧ (maxVotes (voteCounts votes) = 0
        ∨ ∃ p ∈ voteCounts votes, p.2 = maxVotes (voteCounts votes))
    ∧ ((∀ v ∈ votes, v.target = none) →
        voteCounts votes = [] ∧ maxVotes (voteCounts votes) = 0
          ∧ tallyWinner votes = none) := by
  refine ⟨countsFold_filter votes [], ?_, ?_, ?_⟩
  · intro p hp
    exact foldlMax_mem_le (List.mem_map_of_mem Prod.snd hp) 0
  · rcases foldlMax_eq_or_mem ((voteCounts votes).map Prod.snd) 0 with h | h
    · exact Or.inl h
    · rcases List.mem_map.mp h with ⟨p, hp, hpe⟩
      exact Or.inr ⟨p, hp, hpe⟩
  · intro h
    have hc : voteCounts votes = [] := countsFold_abstain votes [] h
    refine ⟨hc, ?_, ?_⟩
    · rw [hc]; rfl
    · unfold tallyWinner
      rw [hc]
      rfl

/-- Witness for C6 at the abstain law instance tally([abstain, abstain]). -/
theorem tally_ignores_abstentions_witness :
    voteCounts [⟨1, 1, none⟩, ⟨1, 2, none⟩] = []
    ∧ maxVotes (voteCounts [⟨1, 1, none⟩, ⟨1, 2, none⟩]) = 0
    ∧ tallyWinner [⟨1, 1, none⟩, ⟨1, 2, none⟩] = none :=
  (tally_ignores_abstentions [⟨1, 1, none⟩, ⟨1, 2, none⟩]).2.2.2 (by decide)

/-! ## C2 -/

/-- C2 counterexample: in the prototype closeRound (src/src/mirrio.jsx),
closing the tie tally([voteFor 1, voteFor 2]) does not record winner = None
with no points: both tied targets are recorded as winners and each receives a
leaderboard point. -/
theorem tie_point_award_in_prototype :
    closeRoundProto [some 1, some 2] [] = ([1, 2], [(1, 1), (2, 1)])
    ∧ (closeRoundProto [some 1, some 2] []).2 ≠ [] := by decide

/-- C2 (amended): in the scheduler close path, a tie of two or more targets at
the maximum yields winner none and leaves the points table unchanged, and a
target is recorded as winner iff it is the unique target achieving the
maximum; the localStorage prototype instead awards each tied target a point. -/
theorem tie_yields_no_winner (db : DB) (r : Round) (now : Nat) :
    (2 ≤ (winnersOf (voteCounts (votesForRound db r.id))).length →
      tallyWinner (votesForRound db r.id) = none
      ∧ (closeRoundServe db r now).points = db.points)
    ∧ ∀ votes : List Vote, ∀ u : Nat,
        tallyWinner votes = some u ↔ winnersOf (voteCounts votes) = [u] := by
  constructor
  · intro h2
    have hw : tallyWinner (votesForRound db r.id) = none := by
      unfold tallyWinner
      cases hws : winnersOf (voteCounts (votesForRound db r.id)) with
      | nil => rfl
      | cons x t =>
        cases t with
        | nil => rw [hws] at h2; simp at h2
        | cons y s => rfl
    exact ⟨hw, closeRoundServe_points_of_no_winner db r now hw⟩
  · intro votes u
    unfold tallyWinner
    cases hws : winnersOf (voteCounts votes) with
    | nil => simp
    | cons x t =>
      cases t with
      | nil => simp
      | cons y s => simp

/-- Witness for C2 on the tied state dbTie. -/
theorem tie_yields_no_winner_witness :
    tallyWinner (votesForRound dbTie 1) = none
    ∧ (closeRoundServe dbTie ⟨1, 1, 1, 0, 100⟩ 200).points = dbTie.points :=
  (tie_yields_no_winner dbTie ⟨1, 1, 1, 0, 100⟩ 200).1 (by decide)

/-! ## C10 -/

/-- C10: the round_results row inserted by the scheduler close step stores
votesCount = maxVotes, the count of the top target, and winner = the tally
winner; votesCount is not the number of ballots cast. -/
theorem stored_votesCount_is_maxVotes (db : DB) (r : Round) (now : Nat)
    (res : RoundResult) (hres : hasResult db r.id = false)
    (hmem : res ∈ (closeRoundServe db r now).roundResults)
    (hnew : res ∉ db.roundResults) :
    res.votesCount = maxVotes (voteCounts (votesForRound db r.id))
    ∧ res.winner = tallyWinner (votesForRound db r.id) := by
  have hfalse : ¬(hasResult db r.id = true) := by simp [hres]
  cases hw : tallyWinner (votesForRound db r.id) with
  | none =>
    simp only [closeRoundServe, hres, hw, Bool.false_eq_true, if_false] at hmem
    rcases List.mem_append.mp hmem with h | h
    · exact absurd h hnew
    · rcases List.mem_singleton.mp h with h
      subst h
      exact ⟨rfl, rfl⟩
  | some w =>
    simp only [closeRoundServe, hres, hw, Bool.false_eq_true, if_false] at hmem
    rcases List.mem_append.mp hmem with h | h
    · exact absurd h hnew
    · rcases List.mem_singleton.mp h with h
      subst h
      exact ⟨rfl, rfl⟩

/-- Witness for C10 on dbThree: 3 ballots, top target 5 with 2 votes; the
stored votesCount is 2, not the ballot total 3. -/
theorem stored_votesCount_is_maxVotes_witness :
    ((⟨1, some 5, 2, 100⟩ : RoundResult).votesCount
        = maxVotes (voteCounts (votesForRound dbThree 1))
      ∧ (⟨1, some 5, 2, 100⟩ : RoundResult).winner
        = tallyWinner (votesForRound dbThree 1))
    ∧ maxVotes (voteCounts (votesForRound dbThree 1)) = 2
    ∧ (votesForRound dbThree 1).length = 3 :=
  ⟨stored_votesCount_is_maxVotes dbThree ⟨1, 1, 1, 0, 100⟩ 100 ⟨1, some 5, 2, 100⟩
      (by decide) (by decide) (by decide),
    by decide, by decide⟩

/-! ## C1 -/

/-- C1 counterexample: createRound checks no precondition: starting from a
state where group 1 already has one open (result-less) round, it inserts a
second round, so two rounds of the group are unclosed at once. -/
theorem createRound_breaks_open_invariant :
    (openRounds dbOpenOne 1).length = 1
    ∧ (openRounds (createRound dbOpenOne 1 1 5 100).2 1).length = 2 := by decide

/-- C1 (amended): createRound performs no open-round check and can produce a
second unclosed round; the scheduler round-creation step guards only on
unexpired rounds (expiresAt > now), so what it preserves is that at most one
unexpired round per group exists — an expired-but-unclosed round does not
block creation. -/
theorem createStep_preserves_one_active (db : DB) (g : Group) (now ri : Nat)
    (h : (activeRounds db g.id now).length ≤ 1) :
    (activeRounds (createStepGroup db g now ri) g.id now).length ≤ 1 := by
  unfold createStepGroup
  split
  · exact h
  next h0 =>
    have hz : (activeRounds db g.id now).length = 0 := by omega
    split
    · exact h
    · cases hpick : pickStatementServe db g ri with
      | none => exact h
      | some s =>
        have hnil : db.rounds.filter
            (fun r => r.groupId == g.id && decide (now < r.expiresAt)) = [] := by
          unfold activeRounds at hz
          exact List.eq_nil_of_length_eq_zero hz
        have hstep : activeRounds
            ((openRoundWrites g s now (freshRoundId db)).foldl applyWrite db) g.id now
            = (db.rounds ++ [(⟨freshRoundId db, g.id, s.id, now, now + dayMs⟩ : Round)]).filter
                (fun r => r.groupId == g.id && decide (now < r.expiresAt)) := rfl
        rw [hstep, List.filter_append, hnil, List.nil_append]
        exact List.length_filter_le _ _

/-- Witness for the amended C1 on a fresh group where a round is created. -/
theorem createStep_preserves_one_active_witness :
    (activeRounds dbFresh gFresh.id 0).length ≤ 1
    ∧ (activeRounds (createStepGroup dbFresh gFresh 0 0) gFresh.id 0).length ≤ 1 :=
  ⟨by decide, createStep_preserves_one_active dbFresh gFresh 0 0 (by decide)⟩

/-! ## C3 -/

/-- C3 counterexample: round 1 of dbClosed already has its RoundResult; a
second closeRound call returns an error, not the existing result, so
closeRound is not an idempotent no-op. -/
theorem closeRound_second_call_errors :
    (closeRound dbClosed 1 (some 10) 2 60).1
        = .error "duplicate round_results row for this round"
    ∧ (closeRound dbClosed 1 (some 10) 2 60).1 ≠ .ok ⟨1, some 10, 2, 50⟩ := by
  refine ⟨rfl, ?_⟩
  intro h
  exact Except.noConfusion h

/-- C3 (amended): a second closeRound call on an already-closed round fails
with the duplicate-insert error and changes nothing — the store, and in
particular the points table, is untouched, so the winner is not awarded a
second point; the scheduler close path instead skips an already-closed round
as a no-op. -/
theorem closeRound_duplicate_rejected (db : DB) (rid : Nat) (w : Option Nat)
    (c t : Nat) (r : Round) (now : Nat) (hr : r.id = rid)
    (h : hasResult db rid = true) :
    (closeRound db rid w c t).1
        = .error "duplicate round_results row for this round"
    ∧ (closeRound db rid w c t).2 = db
    ∧ closeRoundServe db r now = db := by
  refine ⟨?_, ?_, ?_⟩
  · simp [closeRound, h]
  · simp [closeRound, h]
  · simp [closeRoundServe, hr, h]

/-- Witness for the amended C3 on dbClosed. -/
theorem closeRound_duplicate_rejected_witness :
    (closeRound dbClosed 1 (some 11) 5 77).2 = dbClosed
    ∧ closeRoundServe dbClosed ⟨1, 1, 1, 0, 100⟩ 77 = dbClosed :=
  ⟨(closeRound_duplicate_rejected dbClosed 1 (some 11) 5 77 ⟨1, 1, 1, 0, 100⟩ 77
      rfl (by decide)).2.1,
    (closeRound_duplicate_rejected dbClosed 1 (some 11) 5 77 ⟨1, 1, 1, 0, 100⟩ 77
      rfl (by decide)).2.2⟩

/-! ## C4 -/

/-- C4 counterexample: at the exact expiry instant (now = expiresAt = 100) the
spec trigger (now >= expiresAt) says the round is closed, but the tick closes
nothing: STEP 1 selects expires_at < now and STEP 2 selects expires_at > now. -/
theorem closing_trigger_boundary_cex :
    specCloses dbBoundary ⟨1, 1, 1, 0, 100⟩ 100 = true
    ∧ tickCloses dbBoundary ⟨1, 1, 1, 0, 100⟩ 100 = false
    ∧ hasResult dbBoundary 1 = false := by decide

/-- C4 (amended): a round with no prior result is closed by a tick exactly
when now is strictly past expiresAt, or now is strictly before expiresAt and
the group has at least one member and the number of distinct voters (an
abstention counts as a voter) reaches the member count. -/
theorem tick_closing_characterization (db : DB) (r : Round) (now : Nat)
    (hres : hasResult db r.id = false)
    (hnd : ((votesForRound db r.id).map (fun v => v.voter)).Nodup) :
    tickCloses db r now = true ↔
      r.expiresAt < now
      ∨ (now < r.expiresAt ∧ 1 ≤ memberCount db r.groupId
          ∧ memberCount db r.groupId ≤ distinctVoters db r.id) := by
  have hd : distinctVoters db r.id = (votesForRound db r.id).length := by
    unfold distinctVoters
    rw [List.Nodup.dedup hnd, List.length_map]
  rw [hd]
  simp only [tickCloses, hres, Bool.not_false, Bool.and_true, Bool.true_and,
    Bool.or_eq_true, Bool.and_eq_true, decide_eq_true_eq, Bool.not_eq_true',
    beq_eq_false_iff_ne, ne_eq]
  omega

/-- Witness for the amended C4: the expired round of dbBoundary is closed at
time 200. -/
theorem tick_closing_characterization_witness :
    tickCloses dbBoundary ⟨1, 1, 1, 0, 100⟩ 200 = true :=
  (tick_closing_characterization dbBoundary ⟨1, 1, 1, 0, 100⟩ 200 (by decide)
      (by decide)).mpr (Or.inl (by decide))

/-! ## C5 -/

/-- C5 counterexample: the older draft scheduler (part_002) measures the 48h
cooldown from issued_at: at time 180000000 (50h after issue) it opens a new
round for the group of dbDraft although the last round closed at 144000000,
i.e. before closedAt + 48h = 316800000. -/
theorem draft_cooldown_from_issuedAt :
    (createStepGroupDraft dbDraft gDraft 180000000 (some stDraft)).rounds.length = 2
    ∧ dbDraft.rounds.length = 1
    ∧ lastClosedRound dbDraft gDraft.id
        = some (⟨1, 1, 1, 0, 86400000⟩, ⟨1, none, 0, 144000000⟩)
    ∧ 180000000 < 144000000 + 48 * msPerHour := by decide

/-- C5 (amended): the deployed scheduler (create-round-auto) opens a round
only when the group has no unexpired round and at least 48 hours have passed
since closed_at of the last closed round (or no closed round exists);
the older draft scheduler instead measures the 48 hours from issued_at of the
last round. -/
theorem createStep_requires_cooldown (db : DB) (g : Group) (now ri : Nat)
    (hgrow : db.rounds.length < (createStepGroup db g now ri).rounds.length) :
    (activeRounds db g.id now).length = 0
    ∧ ∀ r : Round, ∀ res : RoundResult,
        lastClosedRound db g.id = some (r, res) →
          res.closedAt + 48 * msPerHour ≤ now := by
  unfold createStepGroup at hgrow
  by_cases h1 : 0 < (activeRounds db g.id now).length
  · rw [if_pos h1] at hgrow
    omega
  · rw [if_neg h1] at hgrow
    by_cases h2 : (!(cooldownOk db g.id now)) = true
    · rw [if_pos h2] at hgrow
      omega
    · have hcool : cooldownOk db g.id now = true := by
        simpa using h2
      refine ⟨by omega, ?_⟩
      intro r res heq
      unfold cooldownOk at hcool
      rw [heq] at hcool
      simp [msPerHour] at hcool ⊢
      omega

/-- Witness for the amended C5 on the fresh group of dbFresh, where a round is
created at time 5. -/
theorem createStep_requires_cooldown_witness :
    (activeRounds dbFresh gFresh.id 5).length = 0 :=
  (createStep_requires_cooldown dbFresh gFresh 5 0 (by decide)).1

/-! ## C8 -/

/-- C8 counterexample: after applying only the first write of the opening
sequence, the round exists but the UsedStatement marker for
(groupId, statementId) has not been written. -/
theorem round_exists_before_marker :
    (((openRoundWrites gFresh stFresh 0 1).take 1).foldl applyWrite dbFresh).rounds
        = [⟨1, 3, 7, 0, 86400000⟩]
    ∧ (((openRoundWrites gFresh stFresh 0 1).take 1).foldl applyWrite dbFresh).usedStatements
        = [] := by decide

/-- C8 (amended): the round insert strictly precedes the UsedStatement
insert: at every prefix of the opening write sequence, whenever the marker is
present the round is present too (the converse fails after the first write,
where the round exists without the marker). -/
theorem marker_only_after_round (db : DB) (g : Group) (s : Statement)
    (now rid k : Nat) (hnot : (g.id, s.id) ∉ db.usedStatements)
    (hmem : (g.id, s.id) ∈
      (((openRoundWrites g s now rid).take k).foldl applyWrite db).usedStatements) :
    ∃ r ∈ (((openRoundWrites g s now rid).take k).foldl applyWrite db).rounds,
      r.groupId = g.id ∧ r.statementId = s.id := by
  match k with
  | 0 => exact absurd hmem hnot
  | 1 => exact absurd hmem hnot
  | (n + 2) =>
    have htake : (openRoundWrites g s now rid).take (n + 2)
        = openRoundWrites g s now rid := by
      apply List.take_of_length_le
      simp [openRoundWrites]
    rw [htake] at hmem ⊢
    refine ⟨⟨rid, g.id, s.id, now, now + dayMs⟩, ?_, rfl, rfl⟩
    exact List.mem_append_right _ (List.mem_singleton.mpr rfl)

/-- Witness for the amended C8: after both writes the marker and the round
are both present. -/
theorem marker_only_after_round_witness :
    ∃ r ∈ (((openRoundWrites gFresh stFresh 0 1).take 2).foldl applyWrite dbFresh).rounds,
      r.groupId = gFresh.id ∧ r.statementId = stFresh.id :=
  marker_only_after_round dbFresh gFresh stFresh 0 1 2 (by decide) (by decide)

/-! ## C9 -/

/-- C9 counterexample: user 99 is a member of no group of dbMembers, yet
submitVote accepts a vote for round 1 of group 1 targeting 99 without any
error and stores it. -/
theorem submitVote_accepts_nonmember :
    (dbMembers.groups.all fun g => !(g.members.contains 99)) = true
    ∧ (submitVote dbMembers (some 10) 1 (some 99)).1 = .ok ⟨1, 10, some 99⟩
    ∧ (submitVote dbMembers (some 10) 1 (some 99)).2.votes = [⟨1, 10, some 99⟩] := by
  exact ⟨by decide, rfl, rfl⟩

/-- C9 (amended): submitVote validates nothing about the target: every
authenticated submission succeeds and upserts the (roundId, voter) row with
the submitted target, keeping every other row; the only submitVote failure is
the unauthenticated caller. -/
theorem submitVote_no_validation (db : DB) (uid rid : Nat) (t : Option Nat) :
    (submitVote db (some uid) rid t).1 = .ok ⟨rid, uid, t⟩
    ∧ (⟨rid, uid, t⟩ : Vote) ∈ (submitVote db (some uid) rid t).2.votes
    ∧ (∀ w ∈ db.votes, ¬(w.roundId = rid ∧ w.voter = uid) →
        w ∈ (submitVote db (some uid) rid t).2.votes)
    ∧ submitVote db none rid t = (.error "Not authenticated", db) := by
  by_cases hex : (db.votes.any fun w => w.roundId == rid && w.voter == uid) = true
  · refine ⟨?_, ?_, ?_, rfl⟩
    · simp [submitVote, hex]
    · rcases List.any_eq_true.mp hex with ⟨w, hw, hcond⟩
      have hv : (submitVote db (some uid) rid t).2.votes
          = db.votes.map (fun w =>
              if w.roundId == rid && w.voter == uid then ⟨rid, uid, t⟩ else w) := by
        simp [submitVote, hex]
      rw [hv]
      refine List.mem_map.mpr ⟨w, hw, ?_⟩
      rw [if_pos hcond]
    · intro w hw hne
      have hv : (submitVote db (some uid) rid t).2.votes
          = db.votes.map (fun w =>
              if w.roundId == rid && w.voter == uid then ⟨rid, uid, t⟩ else w) := by
        simp [submitVote, hex]
      rw [hv]
      refine List.mem_map.mpr ⟨w, hw, ?_⟩
      rw [if_neg]
      intro hc
      simp only [Bool.and_eq_true, beq_iff_eq] at hc
      exact hne hc
  · refine ⟨?_, ?_, ?_, rfl⟩
    · simp [submitVote, hex]
    · have hv : (submitVote db (some uid) rid t).2.votes
          = db.votes ++ [⟨rid, uid, t⟩] := by
        simp [submitVote, hex]
      rw [hv]
      exact List.mem_append_right _ (List.mem_singleton.mpr rfl)
    · intro w hw hne
      have hv : (submitVote db (some uid) rid t).2.votes
          = db.votes ++ [⟨rid, uid, t⟩] := by
        simp [submitVote, hex]
      rw [hv]
      exact List.mem_append_left _ hw

/-- Witness for the amended C9: on dbMembers, an authenticated vote by user 10
targeting 11 is accepted, and a pre-existing vote of another voter survives an
upsert on dbTie. -/
theorem submitVote_no_validation_witness :
    (submitVote dbMembers (some 10) 1 (some 11)).1 = .ok ⟨1, 10, some 11⟩
    ∧ (⟨1, 11, some 2⟩ : Vote) ∈ (submitVote dbTie (some 10) 1 none).2.votes :=
  ⟨(submitVote_no_validation dbMembers 10 1 (some 11)).1,
    (submitVote_no_validation dbTie 10 1 none).2.2.1 ⟨1, 11, some 2⟩ (by decide)
      (by decide)⟩

/-! ## C7 -/

/-- With the eligible pool empty the scheduler picks nothing, and its creation
step leaves the store untouched. -/
theorem serve_pick_none_of_exhausted (db : DB) (g : Group) (now ri : Nat)
    (h : eligibleStatements db g = []) :
    pickStatementServe db g ri = none ∧ createStepGroup db g now ri = db := by
  have hp : pickStatementServe db g ri = none := by
    have hlen : (eligibleStatements db g).length = 0 := by rw [h]; rfl
    unfold pickStatementServe
    exact dif_pos hlen
  refine ⟨hp, ?_⟩
  unfold createStepGroup
  split
  · rfl
  · split
    · rfl
    · rw [hp]

/-- In the prototype, an edition with no statements at all yields no pick. -/
theorem proto_pick_none_of_empty_edition (statements : List Statement)
    (used : List Nat) (editionId : Option Nat) (ri : Nat)
    (h : statements.filter (protoEditionFilter editionId) = []) :
    (protoPickNext statements used editionId ri).1 = none := by
  have hall : ∀ s ∈ statements, ¬(protoEditionFilter editionId s = true) :=
    List.filter_eq_nil_iff.mp h
  have havail : ∀ u : List Nat, statements.filter
      (fun s => protoEditionFilter editionId s && !(u.contains s.id)) = [] := by
    intro u
    apply List.filter_eq_nil_iff.mpr
    intro a ha hc
    rcases (Bool.and_eq_true _ _).mp hc with ⟨h1, _⟩
    exact hall a ha h1
  unfold protoPickNext protoAvailable
  simp only [havail]
  rfl

/-- In the prototype, a group WITH an edition set always gets a pick from a
nonempty edition pool: when the eligible pool is exhausted the used history is
reset for the edition and the pick is drawn from the full edition pool.
Requires statement ids to be unique (the primary key of the statements
table). -/
theorem proto_pick_some_of_nonempty (statements : List Statement)
    (used : List Nat) (e : Nat) (ri : Nat)
    (hnd : (statements.map fun s => s.id).Nodup)
    (hne : statements.filter (protoEditionFilter (some e)) ≠ []) :
    ∃ s, (protoPickNext statements used (some e) ri).1 = some s
      ∧ s ∈ statements.filter (protoEditionFilter (some e)) := by
  have hsub : ∀ (u : List Nat) (s : Statement),
      s ∈ statements.filter
        (fun x => protoEditionFilter (some e) x && !(u.contains x.id)) →
      s ∈ statements.filter (protoEditionFilter (some e)) := by
    intro u s hs
    rcases List.mem_filter.mp hs with ⟨hmem, hcond⟩
    exact List.mem_filter.mpr ⟨hmem, ((Bool.and_eq_true _ _).mp hcond).1⟩
  have hform : (protoAvailable statements used (some e)).1
      = statements.filter (fun s => protoEditionFilter (some e) s
          && !((protoAvailable statements used (some e)).2.contains s.id)) := rfl
  have hu1 : (protoAvailable statements used (some e)).2
      = if (statements.filter (fun s => protoEditionFilter (some e) s
            && !(used.contains s.id))).isEmpty
        then protoResetUsed statements used (some e) else used := rfl
  have hA : (protoAvailable statements used (some e)).1 ≠ [] := by
    rw [hform, hu1]
    by_cases hpool : (statements.filter
        (fun s => protoEditionFilter (some e) s && !(used.contains s.id))).isEmpty = true
    · -- pool exhausted: the used history is reset for this edition
      rw [if_pos hpool]
      rcases List.exists_mem_of_ne_nil _ hne with ⟨s0, hs0⟩
      rcases List.mem_filter.mp hs0 with ⟨hs0mem, hs0ed⟩
      have hr : (protoResetUsed statements used (some e)).contains s0.id = false := by
        cases hc : (protoResetUsed statements used (some e)).contains s0.id with
        | false => rfl
        | true =>
          exfalso
          have hmem1 : s0.id ∈ protoResetUsed statements used (some e) :=
            List.elem_iff.mp hc
          rcases List.mem_filter.mp hmem1 with ⟨_, hkeep⟩
          unfold protoKeepUsed at hkeep
          cases hfind : statements.find? (fun s => s.id == s0.id) with
          | none =>
            exact absurd (beq_iff_eq.mpr rfl)
              (List.find?_eq_none.mp hfind s0 hs0mem)
          | some st =>
            rw [hfind] at hkeep
            have hstmem : st ∈ statements := List.mem_of_find?_eq_some hfind
            have hpst := List.find?_some hfind
            have hstid : st.id = s0.id := beq_iff_eq.mp hpst
            have hseq : st = s0 := List.inj_on_of_nodup_map hnd hstmem hs0mem hstid
            have hkeep2 : (!(st.editionId == e)) = true := hkeep
            rw [hseq] at hkeep2
            have hs0ed2 : (s0.editionId == e) = true := hs0ed
            rw [hs0ed2] at hkeep2
            exact Bool.noConfusion hkeep2
      apply List.ne_nil_of_mem (a := s0)
      apply List.mem_filter.mpr
      refine ⟨hs0mem, ?_⟩
      rw [hs0ed, hr]
      rfl
    · -- eligible pool nonempty: it is the available pool
      rw [if_neg hpool]
      intro hnil
      exact hpool (List.isEmpty_iff.mpr hnil)
  have hlen : ¬((protoAvailable statements used (some e)).1.length = 0) := by
    intro h0
    exact hA (List.eq_nil_of_length_eq_zero h0)
  have hget : (protoAvailable statements used (some e)).1.get
      ⟨ri % (protoAvailable statements used (some e)).1.length,
        Nat.mod_lt _ (Nat.pos_of_ne_zero hlen)⟩
      ∈ (protoAvailable statements used (some e)).1 :=
    List.get_mem _ _ _
  refine ⟨_, ?_, hsub ((protoAvailable statements used (some e)).2) _ hget⟩
  simp only [protoPickNext]
  rw [dif_neg hlen]

/-- In the prototype, a group with NO edition set never resets: the keep
predicate of the reset retains every used id whose statement exists, so once
every statement is used the reset clears nothing, the available pool stays
empty and no statement is picked. -/
theorem proto_no_reset_without_edition (statements : List Statement)
    (used : List Nat) (ri : Nat) (hall : ∀ s ∈ statements, s.id ∈ used) :
    (protoPickNext statements used none ri).1 = none := by
  have hpool : statements.filter
      (fun s => protoEditionFilter none s && !(used.contains s.id)) = [] := by
    apply List.filter_eq_nil_iff.mpr
    intro a ha hc
    rcases (Bool.and_eq_true _ _).mp hc with ⟨_, h2⟩
    have hmem : used.contains a.id = true := List.elem_iff.mpr (hall a ha)
    rw [hmem] at h2
    exact Bool.noConfusion h2
  have hu1 : (protoAvailable statements used none).2
      = protoResetUsed statements used none := by
    have h0 : (protoAvailable statements used none).2
        = if (statements.filter (fun s => protoEditionFilter none s
              && !(used.contains s.id))).isEmpty
          then protoResetUsed statements used none else used := rfl
    rw [h0, hpool]
    rfl
  have hform : (protoAvailable statements used none).1
      = statements.filter (fun s => protoEditionFilter none s
          && !((protoAvailable statements used none).2.contains s.id)) := rfl
  have havail : (protoAvailable statements used none).1 = [] := by
    rw [hform, hu1]
    apply List.filter_eq_nil_iff.mpr
    intro a ha hc
    rcases (Bool.and_eq_true _ _).mp hc with ⟨_, h2⟩
    have hmemr : a.id ∈ protoResetUsed statements used none := by
      unfold protoResetUsed
      apply List.mem_filter.mpr
      refine ⟨hall a ha, ?_⟩
      unfold protoKeepUsed
      cases hfind : statements.find? (fun s => s.id == a.id) with
      | none =>
        exact absurd (beq_iff_eq.mpr rfl) (List.find?_eq_none.mp hfind a ha)
      | some st => rfl
    have hcont : (protoResetUsed statements used none).contains a.id = true :=
      List.elem_iff.mpr hmemr
    rw [hcont] at h2
    exact Bool.noConfusion h2
  have hlen : (protoAvailable statements used none).1.length = 0 := by
    rw [havail]
    rfl
  simp only [protoPickNext]
  rw [dif_pos hlen]

/-- C7 counterexample: the edition of gEx has one (non-deleted) statement,
already used by the group, and the scheduler pick returns none — no reset
happens and the creation step leaves the store untouched, although the
edition is nonempty. -/
theorem serve_selection_no_reset :
    pickStatementServe dbExhausted gEx 0 = none
    ∧ (dbExhausted.statements.filter
        (fun s => s.editionId == gEx.editionId && s.deleted == false)).length = 1
    ∧ createStepGroup dbExhausted gEx 50 0 = dbExhausted := by decide

/-- C7 (amended): the scheduler statement selection never resets — with the
eligible pool empty it returns none and skips the group even when the edition
has statements. The prototype issueNewStatement implements the reset policy
only for groups with an edition set: with distinct statement ids it then
picks a member of the edition pool whenever that pool is nonempty (none only
for an empty edition pool); for a group with no edition the reset keeps every
used id, so once all statements are used it picks nothing. -/
theorem pool_reset_policy (db : DB) (g : Group) (now ri : Nat)
    (statements : List Statement) (used : List Nat) (e : Nat) (ri2 : Nat) :
    (eligibleStatements db g = [] →
      pickStatementServe db g ri = none ∧ createStepGroup db g now ri = db)
    ∧ (∀ editionId : Option Nat,
        statements.filter (protoEditionFilter editionId) = [] →
        (protoPickNext statements used editionId ri2).1 = none)
    ∧ ((statements.map fun s => s.id).Nodup →
        statements.filter (protoEditionFilter (some e)) ≠ [] →
        ∃ s, (protoPickNext statements used (some e) ri2).1 = some s
          ∧ s ∈ statements.filter (protoEditionFilter (some e)))
    ∧ ((∀ s ∈ statements, s.id ∈ used) →
        (protoPickNext statements used none ri2).1 = none) :=
  ⟨serve_pick_none_of_exhausted db g now ri,
    fun editionId => proto_pick_none_of_empty_edition statements used editionId ri2,
    proto_pick_some_of_nonempty statements used e ri2,
    proto_no_reset_without_edition statements used ri2⟩

/-- Witness for the amended C7: the exhausted serve pool yields no pick; the
prototype with edition 1 set resets the exhausted history [1] and returns the
one statement again; the same state with no edition set yields no pick. -/
theorem pool_reset_policy_witness :
    (pickStatementServe dbExhausted gEx 3 = none
      ∧ createStepGroup dbExhausted gEx 9 3 = dbExhausted)
    ∧ (∃ s, (protoPickNext [⟨1, 1, false⟩] [1] (some 1) 0).1 = some s
        ∧ s ∈ ([⟨1, 1, false⟩] : List Statement).filter
            (protoEditionFilter (some 1)))
    ∧ (protoPickNext [⟨1, 1, false⟩] [1] none 0).1 = none :=
  ⟨(pool_reset_policy dbExhausted gEx 9 3 [⟨1, 1, false⟩] [1] 1 0).1
      (by decide),
    (pool_reset_policy dbExhausted gEx 9 3 [⟨1, 1, false⟩] [1] 1 0).2.2.1
      (by decide) (by decide),
    (pool_reset_policy dbExhausted gEx 9 3 [⟨1, 1, false⟩] [1] 1 0).2.2.2
      (by decide)⟩

end Mirrio
